import Mathlib

/-!
# GifDecoder: accessors, colour packing and frame-dependency bookkeeping

A shallow embedding of `lib-image-gif/src/main/cpp/GifDecoder.h` and
`lib-image-gif/src/main/cpp/utils/color.h`.

* `uint32_t` colours are natural numbers reduced modulo `2 ^ 32`;
* C `int` / `long` values are `Int` (the accessors perform no arithmetic);
* a C pointer is an `Option`: `none` is `NULL`, and dereferencing `NULL` or indexing an
  array out of bounds makes the accessor return `none`.
-/

/-! ## utils/color.h -/

/-- `typedef uint32_t Color8888;` -/
abbrev Color8888 := Nat

/-- `static const Color8888 COLOR_8888_ALPHA_MASK = 0xff000000;` -/
def COLOR_8888_ALPHA_MASK : Color8888 := 0xff000000

/-- `static const Color8888 TRANSPARENT = 0x0;` -/
def TRANSPARENT : Color8888 := 0x0

/-- `#define ARGB_TO_COLOR8888(a, r, g, b) ((a) << 24 | (b) << 16 | (g) << 8 | (r))`,
the result being stored in a `Color8888` (`uint32_t`), hence reduced modulo `2 ^ 32`. -/
def ARGB_TO_COLOR8888 (a r g b : Nat) : Color8888 :=
  (a <<< 24 ||| b <<< 16 ||| g <<< 8 ||| r) % 2 ^ 32

/-! ## giflib record (only the fields the accessors read) -/

/-- The fields of giflib's `GifFileType` that `GifDecoder.h` reads. -/
structure GifFileType where
  SWidth : Int
  SHeight : Int
  ImageCount : Int
  deriving DecidableEq, Repr

/-! ## GifDecoder.h -/

/-- The private fields of `class GifDecoder`, with the in-class initialisers of the
header as default values. `mGif` and `mPreserveBufferFrame` have no initialiser. -/
structure GifDecoder where
  mGif : Option GifFileType
  mPreservedFrames : Option (List Bool) := none
  mRestoringFrames : Option (List Int) := none
  mBgColor : Color8888 := TRANSPARENT
  mPreserveBuffer : Option (List Color8888) := none
  mPreserveSampleSize : Int := 1
  mPreserveBufferFrame : Int
  mLoopCount : Int := 1
  mDurationMs : Int := 0
  mHasInit : Bool := false
  deriving DecidableEq, Repr

namespace GifDecoder

/-- The state produced by the in-class field initialisers alone; the two fields without
an initialiser are arbitrary. -/
def fieldInitialisers (gif : Option GifFileType) (preserveBufferFrame : Int) : GifDecoder :=
  { mGif := gif, mPreserveBufferFrame := preserveBufferFrame }

/-- `bool hasInit() { return mHasInit; }` -/
def hasInit (d : GifDecoder) : Bool := d.mHasInit

/-- `int getWidth() { return mHasInit ? mGif->SWidth : 0; }` -/
def getWidth (d : GifDecoder) : Option Int :=
  if d.mHasInit then d.mGif.map (fun g => g.SWidth) else some 0

/-- `int getHeight() { return mHasInit ? mGif->SHeight : 0; }` -/
def getHeight (d : GifDecoder) : Option Int :=
  if d.mHasInit then d.mGif.map (fun g => g.SHeight) else some 0

/-- `bool isOpaque() { return (mBgColor & COLOR_8888_ALPHA_MASK) == COLOR_8888_ALPHA_MASK; }` -/
def isOpaque (d : GifDecoder) : Bool :=
  (d.mBgColor &&& COLOR_8888_ALPHA_MASK) == COLOR_8888_ALPHA_MASK

/-- `int getFrameCount() { return mHasInit ? mGif->ImageCount : 0; }` -/
def getFrameCount (d : GifDecoder) : Option Int :=
  if d.mHasInit then d.mGif.map (fun g => g.ImageCount) else some 0

/-- `int getLooperCount() { return mLoopCount; }` -/
def getLooperCount (d : GifDecoder) : Int := d.mLoopCount

/-- `long getDuration() { return mDurationMs; }` -/
def getDuration (d : GifDecoder) : Int := d.mDurationMs

/-- `bool getPreservedFrame(int frameIndex) const { return mPreservedFrames[frameIndex]; }` -/
def getPreservedFrame (d : GifDecoder) (frameIndex : Int) : Option Bool :=
  match d.mPreservedFrames with
  | none => none
  | some flags => if 0 ≤ frameIndex then flags[frameIndex.toNat]? else none

/-- `int getRestoringFrame(int frameIndex) const { return mRestoringFrames[frameIndex]; }` -/
def getRestoringFrame (d : GifDecoder) (frameIndex : Int) : Option Int :=
  match d.mRestoringFrames with
  | none => none
  | some idx => if 0 ≤ frameIndex then idx[frameIndex.toNat]? else none

end GifDecoder

/-! ## Frame descriptors and the dependency analysis

`GifDecoder.h` only declares `init()` and `drawFrame(...)`; their bodies live in
`GifDecoder.cpp`, which is not part of the sources at hand. They are modelled from the
specification (sections 3, 4.1, 4.2 and 7). -/

/-- Modelled from the spec: the disposal-method enum of a frame descriptor (section 3);
the giflib record that carries it is not among the sources. -/
inductive Disposal where
  | None
  | DoNotDispose
  | RestoreBackground
  | RestorePrevious
  deriving DecidableEq, Repr

/-- Modelled from the spec: the per-frame descriptor of section 3 (disposal method,
sub-rectangle within the canvas, optional transparent colour index, delay). -/
structure FrameDescriptor where
  disposal : Disposal
  left : Int
  top : Int
  width : Int
  height : Int
  transparency : Option Nat
  delay : Int
  deriving DecidableEq, Repr

/-- Modelled from the spec: the two parallel per-frame arrays of section 3. -/
structure DependencyTable where
  needsPreserve : List Bool
  restoreSource : List (Option Nat)
  deriving DecidableEq, Repr

/-- Modelled from the spec: section 4.1, a frame is a valid restore target when its own
disposal method is `None` or `DoNotDispose`. -/
def isRestoreTarget (m : Disposal) : Bool :=
  m == Disposal.None || m == Disposal.DoNotDispose

/-- The state of the in-order scan of section 4.1: the index of the frame about to be
scanned, the most recent valid restore target, and the table built so far. -/
structure AnalyzerState where
  index : Nat
  lastTarget : Option Nat
  table : DependencyTable
  deriving DecidableEq, Repr

/-- Modelled from the spec: one step of the scan of section 4.1. Frame `i` gets a cleared
preserve flag; when its disposal is `RestorePrevious` and a valid target `j` has been
seen, `restoreSource[i] = j` and `needsPreserve[j] = true`, otherwise `restoreSource[i]` is
absent; a frame whose disposal is `None` or `DoNotDispose` becomes the most recent target. -/
def analyzeStep (s : AnalyzerState) (f : FrameDescriptor) : AnalyzerState :=
  let table : DependencyTable :=
    match f.disposal, s.lastTarget with
    | Disposal.RestorePrevious, some j =>
      { needsPreserve := s.table.needsPreserve.set j true ++ [false]
        restoreSource := s.table.restoreSource ++ [some j] }
    | _, _ =>
      { needsPreserve := s.table.needsPreserve ++ [false]
        restoreSource := s.table.restoreSource ++ [none] }
  { index := s.index + 1
    lastTarget := if isRestoreTarget f.disposal then some s.index else s.lastTarget
    table := table }

/-- The scan state before any frame has been looked at. -/
def analyzeStart : AnalyzerState :=
  { index := 0, lastTarget := none, table := { needsPreserve := [], restoreSource := [] } }

/-- Modelled from the spec: `analyze(frameDescriptors) -> DependencyTable` of section 4.1,
one in-order pass over the descriptor sequence. -/
def analyze (frames : List FrameDescriptor) : DependencyTable :=
  (frames.foldl analyzeStep analyzeStart).table

/-- The `int` stored in `mRestoringFrames` for a restore source: the header documents
"if >= 0, points to the index of the preserve that frame needs", so an absent source is
stored as `-1`. -/
def restoringEntry : Option Nat → Int
  | some j => (j : Int)
  | none => -1

/-- Modelled from the spec: `GifDecoder::init()` (declared in the header, body in
`GifDecoder.cpp`) runs the dependency analysis once and stores its table in
`mPreservedFrames` / `mRestoringFrames`. -/
def GifDecoder.init (d : GifDecoder) (frames : List FrameDescriptor) : GifDecoder :=
  { d with
    mPreservedFrames := some (analyze frames).needsPreserve
    mRestoringFrames := some ((analyze frames).restoreSource.map restoringEntry) }

/-- The disposal method of frame `k` of a descriptor sequence, when there is such a frame. -/
def disposalAt (frames : List FrameDescriptor) (k : Nat) : Option Disposal :=
  (frames[k]?).map (fun f => f.disposal)

/-- Whether frame `k` exists and is a valid restore target. -/
def targetAt (frames : List FrameDescriptor) (k : Nat) : Bool :=
  match disposalAt frames k with
  | some m => isRestoreTarget m
  | none => false

/-- The entry appended to `restoreSource` by a scan step. -/
def stepSource (s : AnalyzerState) (f : FrameDescriptor) : Option Nat :=
  if f.disposal = Disposal.RestorePrevious then s.lastTarget else none

/-- The invariant of the scan after the frames `frames` have been processed. -/
structure ScanInv (frames : List FrameDescriptor) (s : AnalyzerState) : Prop where
  index_eq : s.index = frames.length
  np_len : s.table.needsPreserve.length = frames.length
  rs_len : s.table.restoreSource.length = frames.length
  last_some : ∀ j, s.lastTarget = some j →
    j < frames.length ∧ targetAt frames j = true ∧
      ∀ k, j < k → k < frames.length → targetAt frames k = false
  last_none : s.lastTarget = none → ∀ k, k < frames.length → targetAt frames k = false
  rs_some : ∀ i j, s.table.restoreSource[i]? = some (some j) →
    disposalAt frames i = some Disposal.RestorePrevious ∧ j < i ∧ targetAt frames j = true ∧
      ∀ k, j < k → k < i → targetAt frames k = false
  rs_none : ∀ i, s.table.restoreSource[i]? = some none →
    disposalAt frames i ≠ some Disposal.RestorePrevious ∨ ∀ k, k < i → targetAt frames k = false
  np_iff : ∀ j, s.table.needsPreserve[j]? = some true ↔
    ∃ i : Nat, s.table.restoreSource[i]? = some (some j)

/-! ## drawFrame -/

/-- Modelled from the spec: the error kinds of section 7. -/
inductive DrawError where
  | OpenFailure
  | DecodeFailure
  | InvalidArgument
  deriving DecidableEq, Repr

/-- What a draw call reports: the frame delay in milliseconds, or a failure. -/
inductive DrawOutcome where
  | delay (ms : Int)
  | failure (e : DrawError)
  deriving DecidableEq, Repr

/-- A finished draw call: what it reported, the caller's output buffer afterwards and the
decoder state afterwards. -/
structure DrawResult where
  outcome : DrawOutcome
  output : List Color8888
  decoder : GifDecoder
  deriving DecidableEq, Repr

/-- Modelled from the spec: `GifDecoder::drawFrame` (declared in the header, body in
`GifDecoder.cpp`). Section 4.2 gives the preconditions `0 <= targetFrame < frameCount`,
`sampleSize >= 1` and an output buffer of at least
`ceil(canvasHeight / sampleSize) * outputStride` pixels; section 7 makes each violation an
`InvalidArgument` that fails fast, before anything is read or written. The compositing of
an in-range frame (section 4.2, steps 1-4) is the parameter `composite`. -/
def GifDecoder.drawFrame
    (composite : GifDecoder → Int → List Color8888 → Int → Int → Int → DrawResult)
    (d : GifDecoder) (frameNr : Int) (outputPtr : List Color8888)
    (outputPixelStride previousFrameNr inSampleSize : Int) : Option DrawResult :=
  match d.getFrameCount with
  | none => none
  | some frameCount =>
    if frameNr < 0 ∨ frameCount ≤ frameNr then
      some ⟨DrawOutcome.failure DrawError.InvalidArgument, outputPtr, d⟩
    else if inSampleSize < 1 then
      some ⟨DrawOutcome.failure DrawError.InvalidArgument, outputPtr, d⟩
    else
      match d.getHeight with
      | none => none
      | some height =>
        if (outputPtr.length : Int) <
            ((height + inSampleSize - 1) / inSampleSize) * outputPixelStride then
          some ⟨DrawOutcome.failure DrawError.InvalidArgument, outputPtr, d⟩
        else
          some (composite d frameNr outputPtr outputPixelStride previousFrameNr inSampleSize)

/-! ## Concrete states used to exercise the theorems -/

/-- A parsed 640x480 record of 12 frames. -/
def sampleRecord : GifFileType := ⟨640, 480, 12⟩

/-- A decoder holding `sampleRecord` whose `mHasInit` is still unset. -/
def sampleNotInit : GifDecoder := { mGif := some sampleRecord, mPreserveBufferFrame := 7 }

/-- A successfully initialised decoder over `sampleRecord`. -/
def sampleInit : GifDecoder :=
  { mGif := some sampleRecord, mPreserveBufferFrame := 0, mHasInit := true }

/-- An uninitialised decoder whose background colour is opaque pure red. -/
def sampleOpaqueRed : GifDecoder :=
  { mGif := none, mPreserveBufferFrame := 0, mBgColor := ARGB_TO_COLOR8888 255 255 0 0 }

/-- A decoder with `mHasInit` unset whose other fields were filled from an endlessly
looping GIF of 1200 ms with an opaque background. -/
def sampleFilledNotInit : GifDecoder :=
  { mGif := some sampleRecord, mPreserveBufferFrame := 0, mLoopCount := 0,
    mDurationMs := 1200, mBgColor := 0xff102030 }

/-- An initialised decoder over a 2x2 record of three frames. -/
def sampleThreeFrames : GifDecoder :=
  { mGif := some ⟨2, 2, 3⟩, mPreserveBufferFrame := 0, mHasInit := true }

/-- A compositing step that blanks the whole output buffer. -/
def blankingComposite (d : GifDecoder) (_frameNr : Int) (output : List Color8888)
    (_stride _previous _sample : Int) : DrawResult :=
  ⟨DrawOutcome.delay 100, output.map (fun _ => 0), d⟩

/-- The one-frame sequence whose only frame has disposal `RestorePrevious`. -/
def restorePreviousFirst : List FrameDescriptor :=
  [⟨Disposal.RestorePrevious, 0, 0, 1, 1, none, 10⟩]

/-! ## Bit-level facts about the colour packing -/

theorem shiftLeft_or_low (k i x : Nat) (hx : x < 2 ^ i) : k <<< i ||| x = k * 2 ^ i + x := by
  rw [Nat.shiftLeft_eq, Nat.mul_comm, ← Nat.mul_add_lt_is_or hx]

theorem ARGB_TO_COLOR8888_eq_sum (a r g b : Nat) (ha : a < 256) (hr : r < 256)
    (hg : g < 256) (hb : b < 256) :
    ARGB_TO_COLOR8888 a r g b = a * 16777216 + b * 65536 + g * 256 + r := by
  unfold ARGB_TO_COLOR8888
  rw [Nat.or_assoc, Nat.or_assoc]
  rw [shiftLeft_or_low g 8 r (by omega), shiftLeft_or_low b 16 _ (by norm_num; omega),
    shiftLeft_or_low a 24 _ (by norm_num; omega)]
  norm_num
  unfold Color8888
  omega

theorem and_byte_mask (c : Nat) : c &&& 0xff = c % 256 :=
  Nat.and_pow_two_sub_one_eq_mod c 8

theorem and_alpha_mask (c : Nat) :
    c &&& COLOR_8888_ALPHA_MASK = (c / 16777216 % 256) * 16777216 := by
  have hm : COLOR_8888_ALPHA_MASK = 0xff <<< 24 := by decide
  have hp : (16777216 : Nat) = 2 ^ 24 := by norm_num
  rw [hm, hp, ← and_byte_mask, ← Nat.shiftRight_eq_div_pow, ← Nat.shiftLeft_eq]
  apply Nat.eq_of_testBit_eq
  intro i
  simp only [Nat.testBit_and, Nat.testBit_shiftLeft, Nat.testBit_shiftRight]
  by_cases hi : 24 ≤ i
  · have : 24 + (i - 24) = i := by omega
    simp [hi, this]
  · simp [hi]

/-! ## The accessors -/

/-- C1: in every decoder state where `hasInit()` is false, `getWidth()`, `getHeight()` and
`getFrameCount()` return 0, whatever the underlying GIF record (even a null one) holds. -/
theorem accessors_zero_of_not_hasInit (d : GifDecoder) (h : d.hasInit = false) :
    d.getWidth = some 0 ∧ d.getHeight = some 0 ∧ d.getFrameCount = some 0 := by
  have h0 : d.mHasInit = false := h
  simp [GifDecoder.getWidth, GifDecoder.getHeight, GifDecoder.getFrameCount, h0]

/-- C1 at a state holding a parsed 640x480 record of 12 frames but with `mHasInit` unset. -/
theorem accessors_zero_of_not_hasInit_witness :
    sampleNotInit.hasInit = false ∧ sampleNotInit.getWidth = some 0 ∧
      sampleNotInit.getHeight = some 0 ∧ sampleNotInit.getFrameCount = some 0 :=
  ⟨rfl, accessors_zero_of_not_hasInit sampleNotInit rfl⟩

/-- C6: in every decoder state where `hasInit()` is true, `getWidth()`, `getHeight()` and
`getFrameCount()` return the record's `SWidth`, `SHeight` and `ImageCount` unchanged. -/
theorem accessors_read_record_of_hasInit (d : GifDecoder) (g : GifFileType)
    (h : d.hasInit = true) (hg : d.mGif = some g) :
    d.getWidth = some g.SWidth ∧ d.getHeight = some g.SHeight ∧
      d.getFrameCount = some g.ImageCount := by
  have h1 : d.mHasInit = true := h
  simp [GifDecoder.getWidth, GifDecoder.getHeight, GifDecoder.getFrameCount, h1, hg]

/-- C6 at an initialised decoder over a 640x480 record of 12 frames. -/
theorem accessors_read_record_of_hasInit_witness :
    sampleInit.hasInit = true ∧ sampleInit.mGif = some sampleRecord ∧
      sampleInit.getWidth = some 640 ∧ sampleInit.getHeight = some 480 ∧
      sampleInit.getFrameCount = some 12 :=
  ⟨rfl, rfl, accessors_read_record_of_hasInit sampleInit sampleRecord rfl rfl⟩

/-- C2: when the background colour is `ARGB_TO_COLOR8888(a, r, g, b)` for 8-bit channels,
`isOpaque()` is true exactly when `a = 255`; `r`, `g`, `b` and `mHasInit` play no part. -/
theorem isOpaque_iff_alpha_255 (d : GifDecoder) (a r g b : Nat) (ha : a < 256) (hr : r < 256)
    (hg : g < 256) (hb : b < 256) (hbg : d.mBgColor = ARGB_TO_COLOR8888 a r g b) :
    d.isOpaque = true ↔ a = 255 := by
  have hsum := ARGB_TO_COLOR8888_eq_sum a r g b ha hr hg hb
  have hdiv : ARGB_TO_COLOR8888 a r g b / 16777216 % 256 = a := by
    rw [hsum]; unfold Color8888; omega
  have hmask : COLOR_8888_ALPHA_MASK = 255 * 16777216 := by decide
  unfold GifDecoder.isOpaque
  rw [hbg, beq_iff_eq, and_alpha_mask, hdiv, hmask]
  unfold Color8888
  omega

/-- C2 at an uninitialised decoder whose background is opaque pure red. -/
theorem isOpaque_iff_alpha_255_witness :
    ((255 : Nat) < 256 ∧ (0 : Nat) < 256 ∧
        sampleOpaqueRed.mBgColor = ARGB_TO_COLOR8888 255 255 0 0) ∧
      (sampleOpaqueRed.isOpaque = true ↔ (255 : Nat) = 255) :=
  ⟨⟨by decide, by decide, rfl⟩,
    isOpaque_iff_alpha_255 sampleOpaqueRed 255 255 0 0 (by decide) (by decide) (by decide)
      (by decide) rfl⟩

/-- C8: `ARGB_TO_COLOR8888` packs four 8-bit channels losslessly into 32 bits: the result is
below `2 ^ 32`, holds `a` in bits 24-31, `b` in bits 16-23, `g` in bits 8-15 and `r` in bits
0-7 (each recovered by a shift and a mask with `0xff`), and is injective on 8-bit tuples. -/
theorem ARGB_TO_COLOR8888_lossless (a r g b : Nat) (ha : a < 256) (hr : r < 256)
    (hg : g < 256) (hb : b < 256) :
    ARGB_TO_COLOR8888 a r g b < 2 ^ 32 ∧
      (ARGB_TO_COLOR8888 a r g b >>> 24) &&& 0xff = a ∧
      (ARGB_TO_COLOR8888 a r g b >>> 16) &&& 0xff = b ∧
      (ARGB_TO_COLOR8888 a r g b >>> 8) &&& 0xff = g ∧
      ARGB_TO_COLOR8888 a r g b &&& 0xff = r ∧
      ∀ a' r' g' b' : Nat, a' < 256 → r' < 256 → g' < 256 → b' < 256 →
        ARGB_TO_COLOR8888 a' r' g' b' = ARGB_TO_COLOR8888 a r g b →
        a' = a ∧ r' = r ∧ g' = g ∧ b' = b := by
  have hsum := ARGB_TO_COLOR8888_eq_sum a r g b ha hr hg hb
  simp only [and_byte_mask, Nat.shiftRight_eq_div_pow, Nat.reducePow]
  unfold Color8888 at *
  refine ⟨by omega, by omega, by omega, by omega, by omega, ?_⟩
  intro a' r' g' b' ha' hr' hg' hb' heq
  have hsum' := ARGB_TO_COLOR8888_eq_sum a' r' g' b' ha' hr' hg' hb'
  unfold Color8888 at *
  omega

/-- C8 at the channels `a = 0x12`, `r = 0x34`, `g = 0x56`, `b = 0x78`. -/
theorem ARGB_TO_COLOR8888_lossless_witness :
    ((0x12 : Nat) < 256 ∧ (0x34 : Nat) < 256 ∧ (0x56 : Nat) < 256 ∧ (0x78 : Nat) < 256) ∧
      ARGB_TO_COLOR8888 0x12 0x34 0x56 0x78 = 0x12785634 ∧
      (ARGB_TO_COLOR8888 0x12 0x34 0x56 0x78 >>> 24) &&& 0xff = 0x12 :=
  ⟨⟨by decide, by decide, by decide, by decide⟩, by decide,
    (ARGB_TO_COLOR8888_lossless 0x12 0x34 0x56 0x78 (by decide) (by decide) (by decide)
      (by decide)).2.1⟩

/-! ## The dependency analysis -/

theorem getElem?_snoc {α : Type} (l : List α) (x : α) (k : Nat) :
    (l ++ [x])[k]? = if k < l.length then l[k]? else if k = l.length then some x else none := by
  by_cases h : k < l.length
  · simp [h, List.getElem?_append_left h]
  · rw [List.getElem?_append_right (by omega)]
    by_cases h2 : k = l.length
    · simp [h2]
    · have : k - l.length ≠ 0 := by omega
      simp [h, h2]
      omega

theorem disposalAt_snoc (ds : List FrameDescriptor) (f : FrameDescriptor) (k : Nat) :
    disposalAt (ds ++ [f]) k =
      if k < ds.length then disposalAt ds k
      else if k = ds.length then some f.disposal else none := by
  unfold disposalAt
  rw [getElem?_snoc]
  split_ifs <;> simp

theorem targetAt_snoc (ds : List FrameDescriptor) (f : FrameDescriptor) (k : Nat) :
    targetAt (ds ++ [f]) k =
      if k < ds.length then targetAt ds k
      else if k = ds.length then isRestoreTarget f.disposal else false := by
  unfold targetAt
  rw [disposalAt_snoc]
  split_ifs <;> simp

theorem analyzeStep_restoreSource (s : AnalyzerState) (f : FrameDescriptor) :
    (analyzeStep s f).table.restoreSource = s.table.restoreSource ++ [stepSource s f] := by
  unfold analyzeStep stepSource
  cases hd : f.disposal <;> cases hl : s.lastTarget <;> simp

theorem analyzeStep_needsPreserve (s : AnalyzerState) (f : FrameDescriptor) :
    (analyzeStep s f).table.needsPreserve =
      (match stepSource s f with
        | some j => s.table.needsPreserve.set j true
        | none => s.table.needsPreserve) ++ [false] := by
  unfold analyzeStep stepSource
  cases hd : f.disposal <;> cases hl : s.lastTarget <;> simp

theorem analyzeStep_index (s : AnalyzerState) (f : FrameDescriptor) :
    (analyzeStep s f).index = s.index + 1 := rfl

theorem analyzeStep_lastTarget (s : AnalyzerState) (f : FrameDescriptor) :
    (analyzeStep s f).lastTarget =
      if isRestoreTarget f.disposal then some s.index else s.lastTarget := rfl

theorem stepSource_eq_some (s : AnalyzerState) (f : FrameDescriptor) (j : Nat)
    (h : stepSource s f = some j) :
    f.disposal = Disposal.RestorePrevious ∧ s.lastTarget = some j := by
  unfold stepSource at h
  split_ifs at h with hd
  exact ⟨hd, h⟩

theorem stepSource_eq_none (s : AnalyzerState) (f : FrameDescriptor)
    (h : stepSource s f = none) :
    f.disposal ≠ Disposal.RestorePrevious ∨ s.lastTarget = none := by
  unfold stepSource at h
  split_ifs at h with hd
  · exact Or.inr h
  · exact Or.inl hd

theorem isRestoreTarget_restorePrevious : isRestoreTarget Disposal.RestorePrevious = false := rfl

theorem ScanInv.start : ScanInv [] analyzeStart := by
  constructor <;> simp [analyzeStart, targetAt, disposalAt]

theorem ScanInv.step {ds : List FrameDescriptor} {s : AnalyzerState} (inv : ScanInv ds s)
    (f : FrameDescriptor) : ScanInv (ds ++ [f]) (analyzeStep s f) := by
  have hidx := inv.index_eq
  have hnp := inv.np_len
  have hrs := inv.rs_len
  constructor
  · simp [analyzeStep_index, hidx]
  · rw [analyzeStep_needsPreserve]
    cases stepSource s f <;> simp [hnp]
  · rw [analyzeStep_restoreSource]
    simp [hrs]
  · -- last_some
    intro j hj
    rw [analyzeStep_lastTarget] at hj
    simp only [List.length_append, List.length_singleton]
    by_cases ht : isRestoreTarget f.disposal = true
    · rw [if_pos ht] at hj
      have hjn : j = ds.length := by
        have := Option.some.inj hj
        omega
      subst hjn
      refine ⟨by omega, ?_, ?_⟩
      · rw [targetAt_snoc]; simp [ht]
      · intro k h1 h2; omega
    · rw [if_neg ht] at hj
      obtain ⟨h1, h2, h3⟩ := inv.last_some j hj
      refine ⟨by omega, ?_, ?_⟩
      · rw [targetAt_snoc, if_pos h1]; exact h2
      · intro k hk1 hk2
        rw [targetAt_snoc]
        by_cases hk : k < ds.length
        · rw [if_pos hk]; exact h3 k hk1 hk
        · have : k = ds.length := by omega
          rw [if_neg hk, if_pos this]
          simpa using ht
  · -- last_none
    intro hl k hk
    rw [analyzeStep_lastTarget] at hl
    simp only [List.length_append, List.length_singleton] at hk
    by_cases ht : isRestoreTarget f.disposal = true
    · rw [if_pos ht] at hl; cases hl
    · rw [if_neg ht] at hl
      rw [targetAt_snoc]
      by_cases hk' : k < ds.length
      · rw [if_pos hk']; exact inv.last_none hl k hk'
      · have : k = ds.length := by omega
        rw [if_neg hk', if_pos this]
        simpa using ht
  · -- rs_some
    intro i j hij
    rw [analyzeStep_restoreSource, getElem?_snoc, hrs] at hij
    by_cases hi : i < ds.length
    · rw [if_pos hi] at hij
      obtain ⟨h1, h2, h3, h4⟩ := inv.rs_some i j hij
      refine ⟨?_, h2, ?_, ?_⟩
      · rw [disposalAt_snoc, if_pos hi]; exact h1
      · rw [targetAt_snoc, if_pos (by omega)]; exact h3
      · intro k hk1 hk2
        rw [targetAt_snoc, if_pos (by omega)]; exact h4 k hk1 hk2
    · rw [if_neg hi] at hij
      by_cases hi' : i = ds.length
      · rw [if_pos hi'] at hij
        obtain ⟨hd, hl⟩ := stepSource_eq_some s f j (Option.some.inj hij)
        obtain ⟨h1, h2, h3⟩ := inv.last_some j hl
        subst hi'
        refine ⟨?_, h1, ?_, ?_⟩
        · rw [disposalAt_snoc]; simp [hd]
        · rw [targetAt_snoc, if_pos h1]; exact h2
        · intro k hk1 hk2
          rw [targetAt_snoc, if_pos hk2]; exact h3 k hk1 hk2
      · rw [if_neg hi'] at hij; cases hij
  · -- rs_none
    intro i hi0
    rw [analyzeStep_restoreSource, getElem?_snoc, hrs] at hi0
    by_cases hi : i < ds.length
    · rw [if_pos hi] at hi0
      rcases inv.rs_none i hi0 with h | h
      · left; rw [disposalAt_snoc, if_pos hi]; exact h
      · right; intro k hk
        rw [targetAt_snoc, if_pos (by omega)]; exact h k hk
    · rw [if_neg hi] at hi0
      by_cases hi' : i = ds.length
      · rw [if_pos hi'] at hi0
        subst hi'
        rcases stepSource_eq_none s f (Option.some.inj hi0) with h | h
        · left; rw [disposalAt_snoc]; simpa using h
        · right; intro k hk
          rw [targetAt_snoc, if_pos hk]; exact inv.last_none h k hk
      · rw [if_neg hi'] at hi0; cases hi0
  · -- np_iff
    intro j
    rw [analyzeStep_needsPreserve, analyzeStep_restoreSource]
    constructor
    · intro h
      rw [getElem?_snoc] at h
      cases hx : stepSource s f with
      | none =>
        rw [hx] at h
        simp only [hnp] at h
        by_cases hj : j < ds.length
        · rw [if_pos hj] at h
          obtain ⟨i, hi⟩ := (inv.np_iff j).1 h
          have hil : i < ds.length := by
            by_contra hc
            rw [List.getElem?_eq_none (by omega)] at hi
            cases hi
          exact ⟨i, by rw [getElem?_snoc, hrs, if_pos hil]; exact hi⟩
        · rw [if_neg hj] at h
          split_ifs at h
          cases h
      | some j0 =>
        rw [hx] at h
        simp only [List.length_set, hnp] at h
        by_cases hj : j < ds.length
        · rw [if_pos hj] at h
          by_cases hjj : j0 = j
          · exact ⟨ds.length, by rw [getElem?_snoc, hrs]; simp [hjj]⟩
          · rw [List.getElem?_set_ne hjj] at h
            obtain ⟨i, hi⟩ := (inv.np_iff j).1 h
            have hil : i < ds.length := by
              by_contra hc
              rw [List.getElem?_eq_none (by omega)] at hi
              cases hi
            exact ⟨i, by rw [getElem?_snoc, hrs, if_pos hil]; exact hi⟩
        · rw [if_neg hj] at h
          split_ifs at h
          cases h
    · rintro ⟨i, hi⟩
      rw [getElem?_snoc, hrs] at hi
      have hcases : (i < ds.length ∧ s.table.restoreSource[i]? = some (some j)) ∨
          (i = ds.length ∧ stepSource s f = some j) := by
        by_cases hil : i < ds.length
        · rw [if_pos hil] at hi; exact Or.inl ⟨hil, hi⟩
        · rw [if_neg hil] at hi
          split_ifs at hi with h2
          exact Or.inr ⟨h2, Option.some.inj hi⟩
      rcases hcases with ⟨hil, hi'⟩ | ⟨hil, hx⟩
      · have hold := (inv.np_iff j).2 ⟨i, hi'⟩
        have hj : j < ds.length := by
          by_contra hc
          rw [List.getElem?_eq_none (by omega)] at hold
          cases hold
        rw [getElem?_snoc]
        cases hx : stepSource s f with
        | none => simp only [hnp, if_pos hj]; exact hold
        | some j0 =>
          simp only [List.length_set, hnp, if_pos hj]
          by_cases hjj : j0 = j
          · subst hjj
            rw [List.getElem?_set_self (by omega)]
          · rw [List.getElem?_set_ne hjj]; exact hold
      · obtain ⟨_, hl⟩ := stepSource_eq_some s f j hx
        obtain ⟨hj, _, _⟩ := inv.last_some j hl
        rw [getElem?_snoc, hx]
        simp only [List.length_set, hnp, if_pos hj]
        rw [List.getElem?_set_self (by omega)]

theorem ScanInv.foldl (rest : List FrameDescriptor) :
    ∀ (ds : List FrameDescriptor) (s : AnalyzerState), ScanInv ds s →
      ScanInv (ds ++ rest) (rest.foldl analyzeStep s) := by
  induction rest with
  | nil => intro ds s inv; simpa using inv
  | cons f rest ih =>
    intro ds s inv
    have h := ih (ds ++ [f]) (analyzeStep s f) (inv.step f)
    simpa using h

/-- The scan invariant holds of the finished analysis. -/
theorem analyze_inv (frames : List FrameDescriptor) :
    ScanInv frames (frames.foldl analyzeStep analyzeStart) := by
  simpa using ScanInv.foldl frames [] analyzeStart ScanInv.start

theorem getPreservedFrame_init (d : GifDecoder) (frames : List FrameDescriptor) (i : Nat) :
    (d.init frames).getPreservedFrame (i : Int) = (analyze frames).needsPreserve[i]? := by
  simp [GifDecoder.getPreservedFrame, GifDecoder.init]

theorem getRestoringFrame_init (d : GifDecoder) (frames : List FrameDescriptor) (i : Nat) :
    (d.init frames).getRestoringFrame (i : Int) =
      ((analyze frames).restoreSource[i]?).map restoringEntry := by
  simp [GifDecoder.getRestoringFrame, GifDecoder.init]

theorem restoringEntry_eq_natCast (x : Option Nat) (j : Nat) :
    restoringEntry x = (j : Int) ↔ x = some j := by
  cases x with
  | none => simp [restoringEntry]
  | some k => simp [restoringEntry]

theorem restoringEntry_nonneg (x : Option Nat) :
    0 ≤ restoringEntry x ↔ ∃ j, x = some j := by
  cases x with
  | none => simp [restoringEntry]
  | some k => simp [restoringEntry]

theorem getRestoringFrame_init_eq_natCast (d : GifDecoder) (frames : List FrameDescriptor)
    (i j : Nat) :
    (d.init frames).getRestoringFrame (i : Int) = some (j : Int) ↔
      (analyze frames).restoreSource[i]? = some (some j) := by
  rw [getRestoringFrame_init]
  cases h : (analyze frames).restoreSource[i]? with
  | none => simp
  | some x => simp [restoringEntry_eq_natCast]

/-- C4: after `init` over any frame sequence, the preserve flag of frame `i` is set exactly
when some later frame `j > i` has disposal `RestorePrevious` and restore index `i`. -/
theorem getPreservedFrame_iff_restored_by_later (d : GifDecoder)
    (frames : List FrameDescriptor) (i : Nat) :
    (d.init frames).getPreservedFrame (i : Int) = some true ↔
      ∃ j : Nat, i < j ∧ disposalAt frames j = some Disposal.RestorePrevious ∧
        (d.init frames).getRestoringFrame (j : Int) = some (i : Int) := by
  have inv := analyze_inv frames
  rw [getPreservedFrame_init]
  unfold analyze
  rw [inv.np_iff i]
  constructor
  · rintro ⟨j, hj⟩
    obtain ⟨h1, h2, _, _⟩ := inv.rs_some j i hj
    exact ⟨j, h2, h1, (getRestoringFrame_init_eq_natCast d frames j i).2 hj⟩
  · rintro ⟨j, _, _, hj⟩
    exact ⟨j, (getRestoringFrame_init_eq_natCast d frames j i).1 hj⟩

theorem targetAt_iff (frames : List FrameDescriptor) (k : Nat) :
    targetAt frames k = true ↔
      disposalAt frames k = some Disposal.None ∨
        disposalAt frames k = some Disposal.DoNotDispose := by
  unfold targetAt
  cases h : disposalAt frames k with
  | none => simp
  | some m => cases m <;> simp [isRestoreTarget]

/-- C5, amended: after `init` over any frame sequence, the restore index of
frame `i` is defined (`getRestoringFrame(i) >= 0`) exactly when frame `i` has disposal
`RestorePrevious` and some earlier frame has disposal `None` or `DoNotDispose`; whenever it
is defined, the frame it points to has its preserve flag set. -/
theorem getRestoringFrame_defined_iff (d : GifDecoder) (frames : List FrameDescriptor)
    (i : Nat) :
    ((∃ r : Int, (d.init frames).getRestoringFrame (i : Int) = some r ∧ 0 ≤ r) ↔
        disposalAt frames i = some Disposal.RestorePrevious ∧
          ∃ k : Nat, k < i ∧ (disposalAt frames k = some Disposal.None ∨
            disposalAt frames k = some Disposal.DoNotDispose)) ∧
      ∀ r : Int, (d.init frames).getRestoringFrame (i : Int) = some r → 0 ≤ r →
        (d.init frames).getPreservedFrame r = some true := by
  have inv := analyze_inv frames
  have hdef : ∀ r : Int, (d.init frames).getRestoringFrame (i : Int) = some r → 0 ≤ r →
      ∃ j : Nat, r = (j : Int) ∧
        (frames.foldl analyzeStep analyzeStart).table.restoreSource[i]? = some (some j) := by
    intro r hr hr0
    rw [getRestoringFrame_init] at hr
    unfold analyze at hr
    cases hx : (frames.foldl analyzeStep analyzeStart).table.restoreSource[i]? with
    | none => rw [hx] at hr; cases hr
    | some x =>
      rw [hx] at hr
      have hre : restoringEntry x = r := Option.some.inj hr
      obtain ⟨j, hj⟩ := (restoringEntry_nonneg x).1 (by rw [hre]; exact hr0)
      subst hj
      exact ⟨j, by rw [← hre]; rfl, rfl⟩
  refine ⟨⟨?_, ?_⟩, ?_⟩
  · rintro ⟨r, hr, hr0⟩
    obtain ⟨j, _, hj⟩ := hdef r hr hr0
    obtain ⟨h1, h2, h3, _⟩ := inv.rs_some i j hj
    exact ⟨h1, j, h2, (targetAt_iff frames j).1 h3⟩
  · rintro ⟨hrp, k, hk, hkt⟩
    have hil : i < frames.length := by
      by_contra hc
      unfold disposalAt at hrp
      rw [List.getElem?_eq_none (by omega)] at hrp
      cases hrp
    have hlen := inv.rs_len
    cases hx : (frames.foldl analyzeStep analyzeStart).table.restoreSource[i]? with
    | none =>
      rw [List.getElem?_eq_none_iff] at hx
      omega
    | some x =>
      cases x with
      | none =>
        rcases inv.rs_none i hx with h | h
        · exact absurd hrp h
        · have := h k hk
          rw [(targetAt_iff frames k).2 hkt] at this
          cases this
      | some j =>
        exact ⟨(j : Int), (getRestoringFrame_init_eq_natCast d frames i j).2 hx, by omega⟩
  · intro r hr hr0
    obtain ⟨j, hrj, hj⟩ := hdef r hr hr0
    subst hrj
    rw [getPreservedFrame_init]
    exact (inv.np_iff j).2 ⟨i, hj⟩

/-- C5 as stated fails on the one-frame sequence whose only frame has disposal
`RestorePrevious`: the frame's disposal is `RestorePrevious`, yet its restore index is the
absent marker `-1`. -/
theorem getRestoringFrame_first_frame_absent :
    disposalAt restorePreviousFirst 0 = some Disposal.RestorePrevious ∧
      ((GifDecoder.fieldInitialisers none 0).init restorePreviousFirst).getRestoringFrame 0 =
        some (-1) ∧
      ¬ ∃ r : Int,
        ((GifDecoder.fieldInitialisers none 0).init restorePreviousFirst).getRestoringFrame 0 =
          some r ∧ 0 ≤ r := by
  refine ⟨by decide, by decide, ?_⟩
  rintro ⟨r, hr, hr0⟩
  have h : ((GifDecoder.fieldInitialisers none 0).init
      restorePreviousFirst).getRestoringFrame 0 = some (-1) := by
    decide
  rw [h] at hr
  have := Option.some.inj hr
  omega

/-- Scenario B of the specification on the model of `init`: three frames with disposals
`None`, `RestorePrevious`, `None` give `restoreSource[1] = 0` and `needsPreserve[0] = true`. -/
theorem analyze_scenario_B :
    analyze [⟨Disposal.None, 0, 0, 4, 4, none, 10⟩,
        ⟨Disposal.RestorePrevious, 1, 1, 2, 2, some 0, 10⟩,
        ⟨Disposal.None, 0, 0, 4, 4, none, 10⟩] =
      { needsPreserve := [true, false, false], restoreSource := [none, some 0, none] } := by
  decide

/-- Consecutive `RestorePrevious` frames resolve to the same nearest valid target, and a
`RestoreBackground` frame is never a target. -/
theorem analyze_consecutive_restorePrevious :
    analyze [⟨Disposal.DoNotDispose, 0, 0, 4, 4, none, 10⟩,
        ⟨Disposal.RestoreBackground, 0, 0, 4, 4, none, 10⟩,
        ⟨Disposal.RestorePrevious, 1, 1, 2, 2, none, 10⟩,
        ⟨Disposal.RestorePrevious, 1, 1, 2, 2, none, 10⟩] =
      { needsPreserve := [true, false, false, false],
        restoreSource := [none, none, some 0, some 0] } := by
  decide

/-! ## Accessors that are not gated by `mHasInit` -/

/-- C3 as stated fails in the state given by the field initialisers: `hasInit()` is false
there and `getLooperCount()` returns 1, not 0. -/
theorem getLooperCount_fieldInitialisers_ne_zero :
    (GifDecoder.fieldInitialisers none 0).hasInit = false ∧
      (GifDecoder.fieldInitialisers none 0).getLooperCount = 1 ∧
      (GifDecoder.fieldInitialisers none 0).getLooperCount ≠ 0 := by
  decide

/-- C3, amended: in every state where `hasInit()` is false, `getWidth()`,
`getHeight()` and `getFrameCount()` return 0, while `getLooperCount()`, `getDuration()` and
`isOpaque()` are not gated by `hasInit()` and report the stored `mLoopCount`, `mDurationMs`
and the alpha test of `mBgColor`; in the state given by the field initialisers these are
1, 0 and false. -/
theorem accessors_of_not_hasInit (d : GifDecoder) (h : d.hasInit = false) :
    (d.getWidth = some 0 ∧ d.getHeight = some 0 ∧ d.getFrameCount = some 0) ∧
      d.getLooperCount = d.mLoopCount ∧ d.getDuration = d.mDurationMs ∧
      (d.isOpaque = true ↔ d.mBgColor / 16777216 % 256 = 255) ∧
      ∀ (gif : Option GifFileType) (frame : Int),
        (GifDecoder.fieldInitialisers gif frame).hasInit = false ∧
          (GifDecoder.fieldInitialisers gif frame).getLooperCount = 1 ∧
          (GifDecoder.fieldInitialisers gif frame).getDuration = 0 ∧
          (GifDecoder.fieldInitialisers gif frame).isOpaque = false := by
  have h0 : d.mHasInit = false := h
  refine ⟨?_, rfl, rfl, ?_, ?_⟩
  · simp [GifDecoder.getWidth, GifDecoder.getHeight, GifDecoder.getFrameCount, h0]
  · have hmask : COLOR_8888_ALPHA_MASK = 255 * 16777216 := by decide
    unfold GifDecoder.isOpaque
    rw [beq_iff_eq, and_alpha_mask, hmask]
    unfold Color8888
    omega
  · intro gif frame
    refine ⟨rfl, rfl, rfl, ?_⟩
    simp [GifDecoder.fieldInitialisers, GifDecoder.isOpaque, TRANSPARENT,
      COLOR_8888_ALPHA_MASK]

/-- C3 at a state with `mHasInit` unset whose other fields were filled from a looping,
opaque-background GIF: the three gated accessors return 0, the others report the fields. -/
theorem accessors_of_not_hasInit_witness :
    sampleFilledNotInit.hasInit = false ∧ sampleFilledNotInit.getFrameCount = some 0 ∧
      sampleFilledNotInit.getLooperCount = 0 ∧ sampleFilledNotInit.getDuration = 1200 ∧
      sampleFilledNotInit.isOpaque = true :=
  ⟨rfl, (accessors_of_not_hasInit sampleFilledNotInit rfl).1.2.2, rfl, rfl, by decide⟩

/-! ## drawFrame on an out-of-range frame index -/

/-- C7: for every decoder and every frame index outside `0 <= frameNr < getFrameCount()`,
`drawFrame` reports `InvalidArgument` and hands back the output buffer with every pixel
unchanged (and the decoder state untouched), whatever the in-range compositing does. -/
theorem drawFrame_out_of_range
    (composite : GifDecoder → Int → List Color8888 → Int → Int → Int → DrawResult)
    (d : GifDecoder) (frameCount frameNr : Int) (outputPtr : List Color8888)
    (outputPixelStride previousFrameNr inSampleSize : Int)
    (hcount : d.getFrameCount = some frameCount)
    (hrange : ¬ (0 ≤ frameNr ∧ frameNr < frameCount)) :
    ∃ res : DrawResult,
      d.drawFrame composite frameNr outputPtr outputPixelStride previousFrameNr
          inSampleSize = some res ∧
        res.outcome = DrawOutcome.failure DrawError.InvalidArgument ∧
        res.output = outputPtr ∧ res.decoder = d := by
  have hcond : frameNr < 0 ∨ frameCount ≤ frameNr := by omega
  refine ⟨⟨DrawOutcome.failure DrawError.InvalidArgument, outputPtr, d⟩, ?_, rfl, rfl, rfl⟩
  unfold GifDecoder.drawFrame
  rw [hcount]
  simp only [if_pos hcond]

/-- C7 at a three-frame decoder asked for frame 3 (the frame count itself), with a
compositing step that would blank the buffer if it were reached. -/
theorem drawFrame_out_of_range_witness :
    sampleThreeFrames.getFrameCount = some 3 ∧ ¬ ((0 : Int) ≤ 3 ∧ (3 : Int) < 3) ∧
      ∃ res : DrawResult,
        sampleThreeFrames.drawFrame blankingComposite 3 [1, 2, 3, 4] 2 2 1 = some res ∧
          res.outcome = DrawOutcome.failure DrawError.InvalidArgument ∧
          res.output = [1, 2, 3, 4] ∧ res.decoder = sampleThreeFrames :=
  ⟨rfl, by decide,
    drawFrame_out_of_range blankingComposite sampleThreeFrames 3 3 [1, 2, 3, 4] 2 2 1 rfl
      (by decide)⟩
